import Mathlib

/-!
Shallow embedding of the Snake minigame from `script.js` (`initSnakeGame`)
and its variant in the unnamed source file (`part_000`). The two variants
share the whole game logic (`reset`, `randomFood`, `setDir`, `tick`);
they differ only in the tick period (120 ms vs 130 ms, not modelled: the
simulator is period-agnostic) and in the `visibilitychange` handler,
which is modelled separately for each variant.

Modelling conventions:
- JS numbers holding grid coordinates and direction components become `Int`;
  `(v + size) % size` uses truncating remainder (`Int.tmod`), matching the
  JS `%` operator.
- The mutable `state` object becomes the `GameState` structure. The
  `loop` field (interval id, `null` when absent) becomes the Boolean
  `loopActive` (whether a periodic tick source is installed).
- `draw()` paints the canvas and reads no future state; its only effect
  visible to the model is that a redraw happened, recorded by the ghost
  counter `redraws`, incremented exactly at the source's `draw()` call
  sites.
- `Math.random()`-driven sampling in `randomFood` is modelled by an
  explicit list of sampled cells (the prefix of the random stream that
  the call consumes); the do-while loop returns the first sample not on
  the snake, and exhausting the list models divergence (`none`).
- Fallible or diverging calls return `Option GameState`: `none` models
  the sampler never finding a free cell, or the `TypeError` that
  `state.snake[0]` would raise on an empty snake while running.
-/

namespace Snake

/-- A grid cell `{x, y}`; also used for direction vectors, which share the
same object shape in the source. -/
structure Cell where
  x : Int
  y : Int
deriving DecidableEq, Repr

/-- The `state` / `gameState` object of `initSnakeGame`, restricted to the
fields the simulator reads or writes (canvas/DOM fields omitted), plus the
ghost redraw counter. -/
structure GameState where
  snake : List Cell
  dir : Cell
  nextDir : Cell
  food : Cell
  running : Bool
  loopActive : Bool
  score : Nat
  best : Nat
  redraws : Nat
deriving DecidableEq, Repr

/-- `state.size`: the board is 18 by 18. -/
def size : Int := 18

/-- `(v + state.size) % state.size` with the JS truncating `%`. -/
def wrap (v : Int) : Int := Int.tmod (v + size) size

/-- `state.snake.some((s) => s.x === p.x && s.y === p.y)`. -/
def occupies (snake : List Cell) (p : Cell) : Bool :=
  snake.any (fun s => s.x == p.x && s.y == p.y)

/-- `randomFood()`: rejection sampling; returns the first sampled cell not
occupied by the snake, `none` if the sample list is exhausted (modelling
a diverging do-while loop). -/
def randomFood (snake : List Cell) : List Cell → Option Cell
  | [] => none
  | p :: rest => if occupies snake p then randomFood snake rest else some p

/-- `draw()`: renders current state; the only model-visible effect is the
ghost counter `redraws`. -/
def draw (s : GameState) : GameState :=
  { s with redraws := s.redraws + 1 }

/-- The fixed initial pose placed by `reset()`. -/
def initSnake : List Cell := [⟨4, 9⟩, ⟨3, 9⟩, ⟨2, 9⟩]

/-- `reset()` (bound to the Start button): places the initial snake and
direction, samples food, zeroes the score, sets `running`, restarts the
interval (`clearInterval` + `setInterval`, hence `loopActive := true`) and
draws. DOM sizing (`resizeBoard`) and score-label updates are not part of
the modelled state. -/
def reset (rand : List Cell) (s : GameState) : Option GameState :=
  match randomFood initSnake rand with
  | none => none
  | some f =>
      some (draw { s with
        snake := initSnake
        dir := ⟨1, 0⟩
        nextDir := ⟨1, 0⟩
        food := f
        score := 0
        running := true
        loopActive := true })

/-- `setDir(x, y)`: rejects the exact reversal of the committed direction,
otherwise stores the pending direction. Note: no `running` check. -/
def setDir (x y : Int) (s : GameState) : GameState :=
  if s.dir.x == -x && s.dir.y == -y then s
  else { s with nextDir := ⟨x, y⟩ }

/-- The wrapped head position one step from `h` in direction `d`. -/
def newHead (h d : Cell) : Cell :=
  ⟨wrap (h.x + d.x), wrap (h.y + d.y)⟩

/-- `tick()`: one simulation step. Returns the state unchanged when not
running; commits the pending direction, computes the wrapped new head,
checks self-collision against the whole current snake (tail included),
then either stops (`running := false`, terminal draw — the interval is
not cleared) or moves, eating food and respawning it when the head lands
on it. -/
def tick (rand : List Cell) (s : GameState) : Option GameState :=
  if !s.running then some s
  else
    match s.snake with
    | [] => none
    | h0 :: _ =>
        let d := s.nextDir
        let head := newHead h0 d
        if occupies s.snake head then
          some (draw { s with dir := d, running := false })
        else
          let snake1 := head :: s.snake
          if head.x == s.food.x && head.y == s.food.y then
            match randomFood snake1 rand with
            | none => none
            | some f =>
                let sc := s.score + 1
                some (draw { s with
                  dir := d
                  snake := snake1
                  score := sc
                  best := if sc > s.best then sc else s.best
                  food := f })
          else
            some (draw { s with dir := d, snake := snake1.dropLast })

/-- A sequence of `tick()` calls, each consuming its own random-sample
list. -/
def tickSeq : List (List Cell) → GameState → Option GameState
  | [], s => some s
  | r :: rs, s =>
      match tick r s with
      | none => none
      | some s1 => tickSeq rs s1

/-- The `visibilitychange` handler of the `part_000` variant:
`state.running = !document.hidden`, unconditionally. -/
def onVisibilityPart000 (hidden : Bool) (s : GameState) : GameState :=
  { s with running := !hidden }

/-- The `visibilitychange` handler of the `script.js` variant: its body is
an empty comment, so the state is untouched. -/
def onVisibilityScript (hidden : Bool) (s : GameState) : GameState := s

/-- The initial `gameState` literal (storage read modelled as best = 0;
`loop: null` is `loopActive := false`). -/
def gameState0 : GameState where
  snake := []
  dir := ⟨1, 0⟩
  nextDir := ⟨1, 0⟩
  food := ⟨5, 5⟩
  running := false
  loopActive := false
  score := 0
  best := 0
  redraws := 0

/-- States reachable through the public operations: a `reset` (Start
button) from any prior state, then any interleaving of ticks, direction
inputs and redraws. -/
inductive Reachable : GameState → Prop where
  | start (s0 : GameState) (rand : List Cell) (s : GameState) :
      reset rand s0 = some s → Reachable s
  | stepTick (s : GameState) (rand : List Cell) (s' : GameState) :
      Reachable s → tick rand s = some s' → Reachable s'
  | stepDir (s : GameState) (x y : Int) :
      Reachable s → Reachable (setDir x y s)
  | stepDraw (s : GameState) :
      Reachable s → Reachable (draw s)

/-! ### Concrete states used to exercise the operations -/

/-- A running session (fresh pose, tick source installed). -/
def sRun : GameState :=
  { gameState0 with snake := initSnake, running := true, loopActive := true }

/-- A running session one step away from self-collision: the head `(4,9)`
moving right lands on the body cell `(5,9)`. -/
def sColl : GameState :=
  { gameState0 with
    snake := [⟨4, 9⟩, ⟨4, 10⟩, ⟨5, 10⟩, ⟨5, 9⟩]
    running := true
    loopActive := true }

/-- The state `tick` produces from `sColl`: halted, interval untouched. -/
def sCollAfter : GameState :=
  draw { sColl with running := false }

/-- `sCollAfter` after the document becomes visible again under the
`part_000` handler. -/
def sRevived : GameState := onVisibilityPart000 false sCollAfter

/-- The session `reset` builds from `gameState0` when the sampler yields
`(0,0)`. -/
def sInit : GameState :=
  draw { gameState0 with
    snake := initSnake
    dir := ⟨1, 0⟩
    nextDir := ⟨1, 0⟩
    food := ⟨0, 0⟩
    score := 0
    running := true
    loopActive := true }

/-- The session `reset` builds from `gameState0` when the sampler yields
`(5,9)`: the food sits right in front of the snake. -/
def sInitF : GameState :=
  draw { gameState0 with
    snake := initSnake
    dir := ⟨1, 0⟩
    nextDir := ⟨1, 0⟩
    food := ⟨5, 9⟩
    score := 0
    running := true
    loopActive := true }

/-- The state `tick` produces from `sInitF` when the food respawn sampler
yields `(0,0)`: the snake has eaten and grown. -/
def sAte : GameState :=
  draw { sInitF with
    dir := ⟨1, 0⟩
    snake := [⟨5, 9⟩, ⟨4, 9⟩, ⟨3, 9⟩, ⟨2, 9⟩]
    score := 1
    best := 1
    food := ⟨0, 0⟩ }

/-! ### Basic lemmas about the embedded operations -/

theorem cell_beq_iff (a b : Cell) : (a.x == b.x && a.y == b.y) = true ↔ a = b := by
  cases a; cases b
  simp [Cell.mk.injEq]

theorem occupies_iff_mem (l : List Cell) (p : Cell) : occupies l p = true ↔ p ∈ l := by
  unfold occupies
  rw [List.any_eq_true]
  constructor
  · rintro ⟨c, hc, hbeq⟩
    rcases (cell_beq_iff c p).mp hbeq with rfl
    exact hc
  · intro hp
    exact ⟨p, hp, (cell_beq_iff p p).mpr rfl⟩

theorem occupies_eq_false_iff (l : List Cell) (p : Cell) :
    occupies l p = false ↔ p ∉ l := by
  rw [← Bool.not_eq_true, not_iff_not]
  exact occupies_iff_mem l p

theorem randomFood_not_occupies :
    ∀ (rand : List Cell) (snake : List Cell) (f : Cell),
      randomFood snake rand = some f → occupies snake f = false := by
  intro rand
  induction rand with
  | nil => intro snake f h; simp [randomFood] at h
  | cons p rest ih =>
      intro snake f h
      unfold randomFood at h
      by_cases hp : occupies snake p
      · rw [if_pos hp] at h
        exact ih snake f h
      · rw [if_neg hp] at h
        cases h
        exact Bool.not_eq_true _ ▸ (by simpa using hp)

theorem tick_not_running (rand : List Cell) (s : GameState)
    (h : s.running = false) : tick rand s = some s := by
  unfold tick
  rw [h]
  rfl

/-- Full case analysis of one `tick()` call that returned a state. -/
theorem tick_cases (rand : List Cell) (s s' : GameState)
    (h : tick rand s = some s') :
    (s.running = false ∧ s' = s) ∨
    (∃ h0 t, s.running = true ∧ s.snake = h0 :: t ∧
      ((occupies s.snake (newHead h0 s.nextDir) = true ∧
          s' = draw { s with dir := s.nextDir, running := false }) ∨
       (occupies s.snake (newHead h0 s.nextDir) = false ∧
        ((newHead h0 s.nextDir = s.food ∧
          ∃ f, randomFood (newHead h0 s.nextDir :: s.snake) rand = some f ∧
            s' = draw { s with
              dir := s.nextDir
              snake := newHead h0 s.nextDir :: s.snake
              score := s.score + 1
              best := if s.score + 1 > s.best then s.score + 1 else s.best
              food := f }) ∨
         (newHead h0 s.nextDir ≠ s.food ∧
          s' = draw { s with
            dir := s.nextDir
            snake := (newHead h0 s.nextDir :: s.snake).dropLast }))))) := by
  unfold tick at h
  by_cases hrun : s.running
  · right
    rw [if_neg (by simp [hrun])] at h
    rcases hsnake : s.snake with _ | ⟨h0, t⟩
    · rw [hsnake] at h; exact absurd h (by simp)
    · rw [hsnake] at h
      simp only at h
      refine ⟨h0, t, hrun, rfl, ?_⟩
      by_cases hocc : occupies (h0 :: t) (newHead h0 s.nextDir) = true
      · left
        rw [if_pos hocc] at h
        exact ⟨hocc, (Option.some_inj.mp h).symm⟩
      · right
        rw [Bool.not_eq_true] at hocc
        refine ⟨hocc, ?_⟩
        rw [if_neg (by simp [hocc])] at h
        by_cases heat : (newHead h0 s.nextDir).x == s.food.x &&
            (newHead h0 s.nextDir).y == s.food.y
        · left
          rw [if_pos heat] at h
          rcases hr : randomFood (newHead h0 s.nextDir :: h0 :: t) rand with _ | f
          · rw [hr] at h; exact absurd h (by simp)
          · rw [hr] at h
            exact ⟨(cell_beq_iff _ _).mp heat, f, rfl,
              (Option.some_inj.mp h).symm⟩
        · right
          rw [if_neg heat] at h
          refine ⟨fun hc => heat ((cell_beq_iff _ _).mpr hc), ?_⟩
          exact (Option.some_inj.mp h).symm
  · left
    rw [Bool.not_eq_true] at hrun
    rw [if_pos (by simp [hrun])] at h
    exact ⟨hrun, (Option.some_inj.mp h).symm⟩

/-- Forward computation: a colliding tick halts the game and redraws,
leaving every other field untouched. -/
theorem tick_collide (rand : List Cell) (s : GameState) (h0 : Cell)
    (t : List Cell) (hrun : s.running = true) (hsnake : s.snake = h0 :: t)
    (hocc : occupies s.snake (newHead h0 s.nextDir) = true) :
    tick rand s = some (draw { s with dir := s.nextDir, running := false }) := by
  have hocc' : occupies (h0 :: t) (newHead h0 s.nextDir) = true :=
    hsnake ▸ hocc
  unfold tick
  rw [if_neg (by simp [hrun]), hsnake]
  simp only
  rw [if_pos hocc']

/-- Forward computation: a non-colliding, non-eating tick moves the snake
one cell. -/
theorem tick_move (rand : List Cell) (s : GameState) (h0 : Cell)
    (t : List Cell) (hrun : s.running = true) (hsnake : s.snake = h0 :: t)
    (hocc : occupies s.snake (newHead h0 s.nextDir) = false)
    (hne : newHead h0 s.nextDir ≠ s.food) :
    tick rand s = some (draw { s with
      dir := s.nextDir
      snake := (newHead h0 s.nextDir :: s.snake).dropLast }) := by
  have hocc' : occupies (h0 :: t) (newHead h0 s.nextDir) = false :=
    hsnake ▸ hocc
  unfold tick
  rw [if_neg (by simp [hrun]), hsnake]
  simp only
  rw [if_neg (by simp [hocc']), if_neg (fun hc => hne ((cell_beq_iff _ _).mp hc)),
    ← hsnake]

/-- Forward computation: a tick whose new head lands on the food grows the
snake, bumps the score and best score, and respawns the food. -/
theorem tick_eat (rand : List Cell) (s : GameState) (h0 : Cell)
    (t : List Cell) (f : Cell) (hrun : s.running = true)
    (hsnake : s.snake = h0 :: t)
    (hocc : occupies s.snake (newHead h0 s.nextDir) = false)
    (heq : newHead h0 s.nextDir = s.food)
    (hf : randomFood (newHead h0 s.nextDir :: s.snake) rand = some f) :
    tick rand s = some (draw { s with
      dir := s.nextDir
      snake := newHead h0 s.nextDir :: s.snake
      score := s.score + 1
      best := if s.score + 1 > s.best then s.score + 1 else s.best
      food := f }) := by
  have hocc' : occupies (h0 :: t) (newHead h0 s.nextDir) = false :=
    hsnake ▸ hocc
  have hf' : randomFood (newHead h0 s.nextDir :: h0 :: t) rand = some f :=
    hsnake ▸ hf
  unfold tick
  rw [if_neg (by simp [hrun]), hsnake]
  simp only
  rw [if_neg (by simp [hocc']), if_pos ((cell_beq_iff _ _).mpr heq), hf']

/-- Characterization of a successful `reset()` call. -/
theorem reset_cases (rand : List Cell) (s s' : GameState)
    (h : reset rand s = some s') :
    ∃ f, randomFood initSnake rand = some f ∧
      s' = draw { s with
        snake := initSnake
        dir := ⟨1, 0⟩
        nextDir := ⟨1, 0⟩
        food := f
        score := 0
        running := true
        loopActive := true } := by
  unfold reset at h
  rcases hr : randomFood initSnake rand with _ | f
  · rw [hr] at h; exact absurd h (by simp)
  · rw [hr] at h
    exact ⟨f, rfl, (Option.some_inj.mp h).symm⟩

/-- Invariant: in every reachable state the food is not on the snake. -/
theorem reachable_food_free (s : GameState) (h : Reachable s) :
    occupies s.snake s.food = false := by
  induction h with
  | start s0 rand s hreset =>
      rcases reset_cases rand s0 s hreset with ⟨f, hf, rfl⟩
      simpa [draw] using randomFood_not_occupies rand initSnake f hf
  | stepTick s rand s' _ htick ih =>
      rcases tick_cases rand s s' htick with ⟨_, rfl⟩ | ⟨h0, t, _, hsnake, hbr⟩
      · exact ih
      · rcases hbr with ⟨_, rfl⟩ | ⟨hocc, ⟨_, f, hf, rfl⟩ | ⟨hne, rfl⟩⟩
        · simpa [draw] using ih
        · simpa [draw] using
            randomFood_not_occupies rand (newHead h0 s.nextDir :: s.snake) f hf
        · simp only [draw]
          rw [occupies_eq_false_iff]
          intro hmem
          have hmem' : s.food ∈ newHead h0 s.nextDir :: s.snake :=
            (List.dropLast_sublist _).subset hmem
          rcases List.mem_cons.mp hmem' with hcase | hcase
          · exact hne hcase.symm
          · exact (occupies_eq_false_iff s.snake s.food).mp ih hcase
  | stepDir s x y _ ih =>
      unfold setDir
      split
      · exact ih
      · simpa using ih
  | stepDraw s _ ih =>
      simpa [draw] using ih

/-- Invariant: in every reachable state the snake cells are pairwise
distinct. -/
theorem reachable_nodup (s : GameState) (h : Reachable s) :
    s.snake.Nodup := by
  induction h with
  | start s0 rand s hreset =>
      rcases reset_cases rand s0 s hreset with ⟨f, _, rfl⟩
      simp only [draw]
      decide
  | stepTick s rand s' _ htick ih =>
      rcases tick_cases rand s s' htick with ⟨_, rfl⟩ | ⟨h0, t, _, hsnake, hbr⟩
      · exact ih
      · rcases hbr with ⟨_, rfl⟩ | ⟨hocc, ⟨_, f, hf, rfl⟩ | ⟨hne, rfl⟩⟩
        · simpa [draw] using ih
        · simp only [draw]
          exact List.nodup_cons.mpr
            ⟨(occupies_eq_false_iff _ _).mp hocc, ih⟩
        · simp only [draw]
          exact List.Nodup.sublist (List.dropLast_sublist _)
            (List.nodup_cons.mpr ⟨(occupies_eq_false_iff _ _).mp hocc, ih⟩)
  | stepDir s x y _ ih =>
      unfold setDir
      split
      · exact ih
      · simpa using ih
  | stepDraw s _ ih =>
      simpa [draw] using ih

/-! ### Claim theorems -/

/-- C1 (amended): for every running session whose wrapped new head lands on
a current snake cell (tail included, since the check precedes tail
removal), `tick()` sets `running` to false, triggers a terminal redraw, and
leaves the snake, score, food — and the periodic tick source — unchanged.
(The source never clears the interval on collision; later ticks are no-ops
through the `running` guard.) -/
theorem tick_self_collision_halts (rand : List Cell) (s : GameState)
    (h0 : Cell) (t : List Cell) (hrun : s.running = true)
    (hsnake : s.snake = h0 :: t)
    (hocc : occupies s.snake (newHead h0 s.nextDir) = true) :
    tick rand s = some (draw { s with dir := s.nextDir, running := false }) :=
  tick_collide rand s h0 t hrun hsnake hocc

/-- C1 witness: the concrete colliding state `sColl`. -/
theorem tick_self_collision_halts_witness :
    tick [] sColl =
      some (draw { sColl with dir := sColl.nextDir, running := false }) :=
  tick_self_collision_halts [] sColl ⟨4, 9⟩ [⟨4, 10⟩, ⟨5, 10⟩, ⟨5, 9⟩]
    rfl rfl (by decide)

/-- C1 counterexample: on the concrete colliding state `sColl` the tick
halts the game but does NOT stop the periodic tick source (`loopActive`
stays true), refuting the claim as stated. -/
theorem tick_self_collision_keeps_interval :
    sColl.running = true ∧ sColl.loopActive = true ∧
    occupies sColl.snake (newHead ⟨4, 9⟩ sColl.nextDir) = true ∧
    tick [] sColl = some sCollAfter ∧
    sCollAfter.running = false ∧ ¬ sCollAfter.loopActive = false := by
  decide

/-- C4 (amended): when `running` is false, `tick()` is a no-op (and total);
`setDirection` is total and changes nothing but `pendingDirection`, but it
does still update `pendingDirection` when the input is not the exact
reversal of the committed direction — it has no `running` guard. -/
theorem stopped_tick_noop_setDir_only_pending (rand : List Cell)
    (s : GameState) (x y : Int) (h : s.running = false) :
    tick rand s = some s ∧
    (setDir x y s = s ∨ setDir x y s = { s with nextDir := ⟨x, y⟩ }) := by
  refine ⟨tick_not_running rand s h, ?_⟩
  unfold setDir
  split
  · exact Or.inl rfl
  · exact Or.inr rfl

/-- C4 witness: the initial (non-running) state. -/
theorem stopped_tick_noop_setDir_only_pending_witness :
    tick [] gameState0 = some gameState0 ∧
    (setDir 0 1 gameState0 = gameState0 ∨
      setDir 0 1 gameState0 = { gameState0 with nextDir := ⟨0, 1⟩ }) :=
  stopped_tick_noop_setDir_only_pending [] gameState0 0 1 rfl

/-- C4 counterexample: on the non-running initial state, `setDir(0,1)`
changes `pendingDirection`, so `setDirection` is not a no-op outside the
running state. -/
theorem setDir_changes_pending_when_stopped :
    gameState0.running = false ∧ setDir 0 1 gameState0 ≠ gameState0 := by
  decide

/-- C5: once `running` is false, any sequence of `tick()` calls (whatever
the random samples) leaves the whole game state unchanged; no sequence of
ticks alone can make a terminal session advance. -/
theorem terminal_tickSeq_noop (s : GameState) (h : s.running = false) :
    ∀ rands : List (List Cell), tickSeq rands s = some s := by
  intro rands
  induction rands with
  | nil => rfl
  | cons r rs ih =>
      unfold tickSeq
      rw [tick_not_running r s h]
      exact ih

/-- C5 witness: the halted state `sCollAfter` under three successive
ticks. -/
theorem terminal_tickSeq_noop_witness :
    tickSeq [[], [⟨1, 1⟩], []] sCollAfter = some sCollAfter :=
  terminal_tickSeq_noop sCollAfter rfl [[], [⟨1, 1⟩], []]

/-- C6: for every running session, submitting the exact negation of the
committed direction leaves the whole state (in particular
`pendingDirection`) unchanged. -/
theorem setDir_reversal_rejected (s : GameState) (h : s.running = true) :
    setDir (-s.dir.x) (-s.dir.y) s = s := by
  unfold setDir
  rw [if_pos (by simp)]

/-- C6 witness: the running state `sRun` (committed direction `(1,0)`). -/
theorem setDir_reversal_rejected_witness :
    setDir (-sRun.dir.x) (-sRun.dir.y) sRun = sRun :=
  setDir_reversal_rejected sRun rfl

/-- C9: coordinates wrap modulo 18 on both axes — a head at `x = 17`
moving `(+1,0)` lands at `x = 0`, and symmetrically for `x = 0` moving
`(-1,0)` and for `y` — and a tick can only set `running` to false through
self-collision of the wrapped new head: there is no wall condition. -/
theorem toroidal_wrap_no_wall :
    (newHead ⟨17, 5⟩ ⟨1, 0⟩ = ⟨0, 5⟩ ∧ newHead ⟨0, 5⟩ ⟨-1, 0⟩ = ⟨17, 5⟩ ∧
     newHead ⟨5, 17⟩ ⟨0, 1⟩ = ⟨5, 0⟩ ∧ newHead ⟨5, 0⟩ ⟨0, -1⟩ = ⟨5, 17⟩) ∧
    ∀ (s : GameState) (rand : List Cell) (s' : GameState),
      s.running = true → tick rand s = some s' → s'.running = false →
      ∃ h0 t, s.snake = h0 :: t ∧
        occupies s.snake (newHead h0 s.nextDir) = true := by
  refine ⟨by decide, ?_⟩
  intro s rand s' hrun htick hstop
  rcases tick_cases rand s s' htick with ⟨hr, _⟩ | ⟨h0, t, _, hsnake, hbr⟩
  · rw [hr] at hrun; exact absurd hrun (by simp)
  · rcases hbr with ⟨hocc, _⟩ | ⟨hocc, ⟨_, f, _, rfl⟩ | ⟨_, rfl⟩⟩
    · exact ⟨h0, t, hsnake, hocc⟩
    · simp [draw, hrun] at hstop
    · simp [draw, hrun] at hstop

/-- C9 witness: crossing no edge, the colliding state `sColl` shows the
terminal transition comes from self-collision. -/
theorem toroidal_wrap_no_wall_witness :
    ∃ h0 t, sColl.snake = h0 :: t ∧
      occupies sColl.snake (newHead h0 sColl.nextDir) = true :=
  toroidal_wrap_no_wall.2 sColl [] sCollAfter (by decide) (by decide)
    (by decide)

/-- C2: starting a session places the snake at `[(4,9),(3,9),(2,9)]` with
direction `(1,0)`, zeroes the score, and sets `running`; one tick with no
direction change, when `(5,9)` is not the food cell, moves the snake to
`[(5,9),(4,9),(3,9)]` with all other fields (score included)
unchanged apart from the redraw. -/
theorem start_then_tick_moves (rand : List Cell) (sAny s' : GameState)
    (hreset : reset rand sAny = some s') :
    (s'.snake = initSnake ∧ s'.dir = ⟨1, 0⟩ ∧ s'.nextDir = ⟨1, 0⟩ ∧
      s'.score = 0 ∧ s'.running = true) ∧
    ∀ rand2 : List Cell, s'.food ≠ (⟨5, 9⟩ : Cell) →
      tick rand2 s' =
        some (draw { s' with snake := [⟨5, 9⟩, ⟨4, 9⟩, ⟨3, 9⟩] }) := by
  rcases reset_cases rand sAny s' hreset with ⟨f, hf, rfl⟩
  refine ⟨⟨rfl, rfl, rfl, rfl, rfl⟩, ?_⟩
  intro rand2 hfood
  have hfood' : f ≠ (⟨5, 9⟩ : Cell) := by simpa [draw] using hfood
  have hne : newHead ⟨4, 9⟩ (⟨1, 0⟩ : Cell) ≠ f := by
    have h59 : newHead ⟨4, 9⟩ (⟨1, 0⟩ : Cell) = ⟨5, 9⟩ := by decide
    rw [h59]
    exact fun hc => hfood' hc.symm
  rw [tick_move rand2 _ ⟨4, 9⟩ [⟨3, 9⟩, ⟨2, 9⟩] rfl rfl
    (show occupies initSnake (newHead ⟨4, 9⟩ (⟨1, 0⟩ : Cell)) = false
      by decide) hne]
  rfl

/-- C2 witness: starting from the initial `gameState0` with the sampler
yielding `(0,0)`. -/
theorem start_then_tick_moves_witness :
    (sInit.snake = initSnake ∧ sInit.dir = ⟨1, 0⟩ ∧ sInit.nextDir = ⟨1, 0⟩ ∧
      sInit.score = 0 ∧ sInit.running = true) ∧
    tick [] sInit =
      some (draw { sInit with snake := [⟨5, 9⟩, ⟨4, 9⟩, ⟨3, 9⟩] }) := by
  have H := start_then_tick_moves [⟨0, 0⟩] gameState0 sInit (by decide)
  exact ⟨H.1, H.2 [] (by decide)⟩

/-- C3: from the start pose with the food at `(5,9)`, one tick grows the
snake to `[(5,9),(4,9),(3,9),(2,9)]` (length 4: the tail is not removed on
an eating tick), sets the score to 1, and places the new food off the
grown snake. -/
theorem start_then_tick_eats (rand : List Cell) (sAny s' : GameState)
    (hreset : reset rand sAny = some s') (hfood : s'.food = ⟨5, 9⟩)
    (rand2 : List Cell) (s'' : GameState) (htick : tick rand2 s' = some s'') :
    s''.snake = [⟨5, 9⟩, ⟨4, 9⟩, ⟨3, 9⟩, ⟨2, 9⟩] ∧ s''.score = 1 ∧
    s''.food ∉ s''.snake := by
  rcases reset_cases rand sAny s' hreset with ⟨f, hf, rfl⟩
  have hfood' : f = ⟨5, 9⟩ := by simpa [draw] using hfood
  subst hfood'
  rcases tick_cases rand2 _ s'' htick with ⟨hr, _⟩ | ⟨h0, t, _, hsnake, hbr⟩
  · exact absurd hr (by simp [draw])
  · have hcons : (⟨4, 9⟩ : Cell) :: [⟨3, 9⟩, ⟨2, 9⟩] = h0 :: t := hsnake
    injection hcons with h2 h3
    subst h2
    subst h3
    rcases hbr with ⟨hocc, _⟩ | ⟨hocc, ⟨heq, f2, hf2, rfl⟩ | ⟨hne, rfl⟩⟩
    · exact absurd hocc
        (show ¬occupies initSnake (newHead ⟨4, 9⟩ (⟨1, 0⟩ : Cell)) = true
          by decide)
    · refine ⟨rfl, rfl, ?_⟩
      exact (occupies_eq_false_iff _ _).mp
        (randomFood_not_occupies rand2 _ f2 hf2)
    · exact absurd
        (show newHead ⟨4, 9⟩ (⟨1, 0⟩ : Cell) = (⟨5, 9⟩ : Cell) by decide) hne

/-- C3 witness: sampler `(5,9)` at start, respawn sampler `(0,0)`. -/
theorem start_then_tick_eats_witness :
    sAte.snake = [⟨5, 9⟩, ⟨4, 9⟩, ⟨3, 9⟩, ⟨2, 9⟩] ∧ sAte.score = 1 ∧
    sAte.food ∉ sAte.snake :=
  start_then_tick_eats [⟨5, 9⟩] gameState0 sInitF (by decide) (by decide)
    [⟨0, 0⟩] sAte (by decide)

/-- C7: in every reachable state (a `reset` followed by any interleaving
of ticks, direction inputs and redraws), the food cell is not on the
snake. -/
theorem food_never_on_snake (s : GameState) (h : Reachable s) :
    s.food ∉ s.snake :=
  (occupies_eq_false_iff s.snake s.food).mp (reachable_food_free s h)

/-- C7 witness: the freshly started session `sInit`. -/
theorem food_never_on_snake_witness : sInit.food ∉ sInit.snake :=
  food_never_on_snake sInit
    (Reachable.start gameState0 [⟨0, 0⟩] sInit (by decide))

/-- C8: in every reachable state the snake cells are pairwise distinct:
every operation preserves the no-self-overlap invariant, because a tick
only prepends a head it has checked to be unoccupied. -/
theorem snake_cells_pairwise_distinct (s : GameState) (h : Reachable s) :
    s.snake.Nodup :=
  reachable_nodup s h

/-- C8 witness: the freshly started session `sInit`. -/
theorem snake_cells_pairwise_distinct_witness : sInit.snake.Nodup :=
  snake_cells_pairwise_distinct sInit
    (Reachable.start gameState0 [⟨0, 0⟩] sInit (by decide))

/-- C10: the `part_000` `visibilitychange` handler sets `running` to the
negation of `document.hidden` unconditionally, while the `script.js`
handler leaves the state untouched; `tick` never clears the interval, so
when the document becomes visible a session terminated by self-collision
has `running = true` and its still-installed tick source makes it tick
again without `start()` being called. -/
theorem visibility_resumes_terminal_part000 :
    (∀ (hidden : Bool) (s : GameState),
      (onVisibilityPart000 hidden s).running = !hidden ∧
      onVisibilityScript hidden s = s) ∧
    (∀ (rand : List Cell) (s s' : GameState),
      tick rand s = some s' → s'.loopActive = s.loopActive) ∧
    (sRevived = onVisibilityPart000 false sCollAfter ∧
      sCollAfter.running = false ∧ sRevived.running = true ∧
      sRevived.loopActive = true ∧ tick [] sRevived ≠ some sRevived) := by
  refine ⟨fun hidden s => ⟨rfl, rfl⟩, ?_, by decide⟩
  intro rand s s' htick
  rcases tick_cases rand s s' htick with ⟨_, rfl⟩ | ⟨h0, t, _, _, hbr⟩
  · rfl
  · rcases hbr with ⟨_, rfl⟩ | ⟨_, ⟨_, f, _, rfl⟩ | ⟨_, rfl⟩⟩ <;> rfl

/-- C10 witness: the colliding tick from `sColl` leaves the tick source
installed. -/
theorem visibility_resumes_terminal_part000_witness :
    sCollAfter.loopActive = sColl.loopActive :=
  visibility_resumes_terminal_part000.2.1 [] sColl sCollAfter (by decide)

end Snake
